import Mathlib

/-!
Verification development for the botpress-templates rendering core.

The repository's rendering pipeline manipulates HTML documents as plain
strings (literal pattern replacement), infers bindings from text content,
detects masked-image groups in design exports, and normalizes design
coordinates.  We embed those functions over `Str := List Char` (JavaScript
strings, one entry per code unit; the inputs used here are ASCII so code
units and code points coincide), with machine floats modelled as `ℚ` where
coordinates are involved.  JavaScript `String.prototype.replace` with a
non-global pattern replaces the first occurrence only; `split(p).join(r)`
replaces every non-overlapping occurrence scanning left to right without
re-scanning replaced text; both are modelled below.
-/

/-- JavaScript strings, modelled as lists of characters. -/
abbrev Str := List Char

/-- Convert a Lean string literal to the model type. -/
def str (s : String) : Str := s.toList

/-- `isPrefOf pat s`: `pat` is an initial segment of `s`. -/
def isPrefOf : Str → Str → Bool
  | [], _ => true
  | _ :: _, [] => false
  | a :: as, b :: bs => a = b && isPrefOf as bs

/-- Index of the first occurrence of `pat` inside `s` (the smallest `i`
with `pat` a prefix of `s.drop i`), as JavaScript `String.indexOf` /
regex search of a literal pattern computes it. -/
def findSubIdx (pat : Str) : Str → Option Nat
  | [] => if isPrefOf pat [] then some 0 else none
  | c :: rest =>
    if isPrefOf pat (c :: rest) then some 0
    else (findSubIdx pat rest).map (· + 1)

/-- JavaScript `s.includes(pat)`. -/
def occursIn (pat s : Str) : Bool := (findSubIdx pat s).isSome

/-- JavaScript `s.replace(pat, rep)` with a non-global literal pattern:
replace the first occurrence only (the string is returned unchanged when
the pattern does not occur). -/
def replaceFirst (pat rep s : Str) : Str :=
  match findSubIdx pat s with
  | none => s
  | some i => s.take i ++ rep ++ s.drop (i + pat.length)

/-- Fuel-indexed worker for `replaceAll`; the fuel bounds the number of
replacements, which for a non-empty pattern is at most `s.length`. -/
def replaceAllAux (pat rep : Str) : Nat → Str → Str
  | 0, s => s
  | fuel + 1, s =>
    match findSubIdx pat s with
    | none => s
    | some i => s.take i ++ rep ++ replaceAllAux pat rep fuel (s.drop (i + pat.length))

/-- JavaScript `s.split(pat).join(rep)` (equivalently `replace` with a
global literal pattern) for a non-empty pattern: replace every
non-overlapping occurrence, scanning left to right, never re-scanning the
replacement text. -/
def replaceAll (pat rep s : Str) : Str := replaceAllAux pat rep s.length s

/-- ASCII whitespace, the fragment of JavaScript `\s` exercised by the
repository's inputs. -/
def isSpaceCh (c : Char) : Bool :=
  c = ' ' || c = '\t' || c = '\n' || c = '\r' || c = Char.ofNat 11 || c = Char.ofNat 12

/-- JavaScript `s.trim()` restricted to ASCII whitespace. -/
def trimStr (s : Str) : Str :=
  ((s.dropWhile isSpaceCh).reverse.dropWhile isSpaceCh).reverse

/-- JavaScript `s.split(sep)` for a single-character separator. -/
def splitOnChar (sep : Char) (s : Str) : List Str :=
  s.foldr
    (fun c acc =>
      match acc with
      | [] => [[c]]
      | g :: gs => if c = sep then [] :: g :: gs else (c :: g) :: gs)
    [[]]

/-- The two brace characters, written via code points. -/
def lbrace : Char := Char.ofNat 123

/-- See `lbrace`. -/
def rbrace : Char := Char.ofNat 125

/-- The double-quote character. -/
def dq : Char := Char.ofNat 34

/-! ### A small matcher for the fixed regular expressions of the source

The converter's binding heuristics use three regular expressions, all of
the shape "sequence of character-class atoms, each quantified by one of
`{1}`, `+`, `*`".  We model exactly that fragment with a backtracking
matcher; because only the Boolean "does a match exist" is consumed by the
source (`content.match(re)` used as a condition), greedy versus lazy
expansion is irrelevant. -/

/-- Quantifier on a character-class atom. -/
inductive Quant where
  | one
  | plus
  | star
deriving DecidableEq

/-- One regular-expression atom: a character class with a quantifier. -/
structure RAtom where
  cls : Char → Bool
  quant : Quant

/-- A single literal character, as an atom. -/
def lit (c : Char) : RAtom := ⟨(· = c), Quant.one⟩

/-- Fuel-indexed matcher: does some expansion of `atoms` match an initial
segment of `s`?  Every recursive call strictly decreases
`s.length + atoms.length`, so fuel `s.length + atoms.length` is always
sufficient. -/
def reMatchHeadAux : Nat → List RAtom → Str → Bool
  | _, [], _ => true
  | 0, _ :: _, _ => false
  | fuel + 1, a :: as, s =>
    match a.quant with
    | Quant.one =>
      match s with
      | [] => false
      | c :: s1 => a.cls c && reMatchHeadAux fuel as s1
    | Quant.plus =>
      match s with
      | [] => false
      | c :: s1 => a.cls c && reMatchHeadAux fuel (⟨a.cls, Quant.star⟩ :: as) s1
    | Quant.star =>
      reMatchHeadAux fuel as s ||
        (match s with
         | [] => false
         | c :: s1 => a.cls c && reMatchHeadAux fuel (a :: as) s1)

/-- Does some expansion of `atoms` match an initial segment of `s`? -/
def reMatchHead (atoms : List RAtom) (s : Str) : Bool :=
  reMatchHeadAux (s.length + atoms.length) atoms s

/-- Unanchored search, as JavaScript `s.match(re)` (truthiness) performs
for a pattern without anchors. -/
def reSearch (atoms : List RAtom) : Str → Bool
  | [] => reMatchHead atoms []
  | c :: s1 => reMatchHead atoms (c :: s1) || reSearch atoms s1

/-- Fuel-indexed matcher for a pattern anchored at both ends (`^...$`). -/
def reMatchFullAux : Nat → List RAtom → Str → Bool
  | _, [], s => s.isEmpty
  | 0, _ :: _, _ => false
  | fuel + 1, a :: as, s =>
    match a.quant with
    | Quant.one =>
      match s with
      | [] => false
      | c :: s1 => a.cls c && reMatchFullAux fuel as s1
    | Quant.plus =>
      match s with
      | [] => false
      | c :: s1 => a.cls c && reMatchFullAux fuel (⟨a.cls, Quant.star⟩ :: as) s1
    | Quant.star =>
      reMatchFullAux fuel as s ||
        (match s with
         | [] => false
         | c :: s1 => a.cls c && reMatchFullAux fuel (a :: as) s1)

/-- Anchored match of the whole string (`^...$`). -/
def reMatchFull (atoms : List RAtom) (s : Str) : Bool :=
  reMatchFullAux (s.length + atoms.length) atoms s

/-- JavaScript `\w`: ASCII letters, digits and underscore. -/
def isWordCh (c : Char) : Bool :=
  ('a' ≤ c && c ≤ 'z') || ('A' ≤ c && c ≤ 'Z') || ('0' ≤ c && c ≤ '9') || c = '_'

/-- JavaScript `\d`. -/
def isDigitCh (c : Char) : Bool := '0' ≤ c && c ≤ '9'

/-- The class `[A-Z]`. -/
def isUpperCh (c : Char) : Bool := 'A' ≤ c && c ≤ 'Z'

/-- The class `[a-z]`. -/
def isLowerCh (c : Char) : Bool := 'a' ≤ c && c ≤ 'z'

/-! ### JSON values

`JSON.parse` results, as the renderer consumes them.  Numbers are modelled
as integers (the stored columns parsed by the renderer carry strings,
arrays and objects; no fractional numbers are consumed). -/

/-- A parsed JSON value. -/
inductive Json where
  | null
  | bool (b : Bool)
  | num (n : Int)
  | jstr (s : Str)
  | arr (xs : List Json)
  | obj (kvs : List (Str × Json))

/-- JavaScript truthiness of a parsed JSON value. -/
def jsTruthy : Json → Bool
  | Json.null => false
  | Json.bool b => b
  | Json.num n => n ≠ 0
  | Json.jstr s => !s.isEmpty
  | Json.arr _ => true
  | Json.obj _ => true

/-- Decimal digits of a natural number (fuel-indexed worker). -/
def natDigitsAux : Nat → Nat → Str
  | 0, _ => []
  | _ + 1, 0 => []
  | fuel + 1, n => natDigitsAux fuel (n / 10) ++ [Char.ofNat (48 + n % 10)]

/-- Decimal rendering of an integer, as JavaScript `String(n)`. -/
def intToStr (n : Int) : Str :=
  if n < 0 then '-' :: natDigitsAux n.natAbs n.natAbs
  else if n = 0 then ['0']
  else natDigitsAux n.natAbs n.natAbs

/-- JavaScript string coercion of a parsed JSON value, as template-literal
interpolation performs it (objects and arrays are rendered crudely; the
renderer only ever interpolates strings in practice). -/
def coerceJsonStr : Json → Str
  | Json.null => str "null"
  | Json.bool true => str "true"
  | Json.bool false => str "false"
  | Json.num n => intToStr n
  | Json.jstr s => s
  | Json.arr _ => []
  | Json.obj _ => str "[object Object]"

/-- Property access `obj[key]` on a parsed JSON value: `some` for a key
present on an object, `none` (JavaScript `undefined`) otherwise —
including access on non-objects, which the renderer only performs where a
thrown access would be caught. -/
def jsonGet (j : Json) (key : Str) : Option Json :=
  match j with
  | Json.obj kvs =>
    match kvs.find? (fun kv => kv.1 = key) with
    | some kv => some kv.2
    | none => none
  | _ => none

/-- Is the value a JSON array (`Array.isArray`)? -/
def isJsonArr : Json → Bool
  | Json.arr _ => true
  | _ => false

/-! ### Template configuration (template-registry shapes)

`TemplateConfig.fields` as the renderer and the converter consume them:
every field carries a name, a type tag, and a list of literal replacement
patterns; a `people` field additionally carries one level of per-person
sub-fields (`field.fields` in the source).  Replacement patterns produced
by the Figma importer (`generateConfig`) are literal strings, so the model
carries the `pattern` string of each replacement entry. -/

/-- The `type` tag of a config field. -/
inductive FieldType where
  | text
  | date
  | time
  | color
  | image
  | people
deriving DecidableEq

/-- A per-person sub-field (an entry of `peopleField.fields`). -/
structure PersonField where
  name : Str
  ftype : FieldType
  replacements : List Str
deriving DecidableEq

/-- A config field (an entry of `config.fields`). -/
structure TemplateField where
  name : Str
  ftype : FieldType
  replacements : List Str
  subfields : List PersonField
deriving DecidableEq

/-- The slice of `TemplateConfig` the rendering core reads. -/
structure TemplateConfig where
  fields : List TemplateField
  colorReplacements : List (Str × Str)

/-- Association-list lookup used for submission columns and parsed maps
(`some` for a present, non-null entry; `none` for `undefined`/`null`). -/
def assocLookup (l : List (Str × Str)) (k : Str) : Option Str :=
  match l.find? (fun kv => kv.1 = k) with
  | some kv => some kv.2
  | none => none

/-! ### `replaceField` (template-engine, `src` part 019 lines 420–482)

Field-value substitution for one config field.  The date and time
formatters (`formatDate` via the `date-fns` library, `formatTime`) are
external to the string pipeline and are taken as parameters: `fmtDate`
returns `none` when the supplied value is not a valid date (the source
then returns the document unchanged), `fmtTime` is total.  The default
color literal is `#3D9DFF`. -/

/-- The default primary color of the source. -/
def defaultColor : Str := str "#3D9DFF"

/-- Match the flexible placeholder `{{ <name> }}` (optional inner ASCII
whitespace) at the head of `s`; on success return the remainder of `s`
after the match.  This is the literal shape of the fallback regex the
source builds from the field name (whose characters are word characters,
so the greedy expansion is the unique one). -/
def matchFlexAt (name : Str) (s : Str) : Option Str :=
  match s with
  | b1 :: b2 :: rest =>
    if b1 = lbrace && b2 = lbrace then
      let r1 := rest.dropWhile isSpaceCh
      if isPrefOf name r1 then
        let r2 := (r1.drop name.length).dropWhile isSpaceCh
        match r2 with
        | e1 :: e2 :: r3 => if e1 = rbrace && e2 = rbrace then some r3 else none
        | _ => none
      else none
    else none
  | _ => none

/-- Fuel-indexed worker for `replaceAllFlex`. -/
def replaceAllFlexAux (name rep : Str) : Nat → Str → Str
  | 0, s => s
  | fuel + 1, s =>
    match matchFlexAt name s with
    | some rest => rep ++ replaceAllFlexAux name rep fuel rest
    | none =>
      match s with
      | [] => []
      | c :: s1 => c :: replaceAllFlexAux name rep fuel s1

/-- Global replacement of the flexible placeholder `{{ <name> }}`, as the
source's `new RegExp("\\{\\{\\s*" + name + "\\s*\\}\\}", "g")`. -/
def replaceAllFlex (name rep s : Str) : Str := replaceAllFlexAux name rep s.length s

/-- Is the field type one of text/date/time (the types for which the
source tries the flexible-placeholder fallback)? -/
def isFlexFieldType : FieldType → Bool
  | FieldType.text => true
  | FieldType.date => true
  | FieldType.time => true
  | _ => false

/-- The replacement loop of `replaceField`: apply every literal
replacement pattern of the field globally; when a literal pattern changed
nothing and the field is text/date/time with a non-empty name, retry with
the flexible `{{ <name> }}` placeholder. -/
def applyReplacements (field : TemplateField) (rv : Str) (html : Str) : Str :=
  field.replacements.foldl
    (fun h pat =>
      if pat.isEmpty then h
      else
        let h2 := replaceAll pat rv h
        if h2 = h && isFlexFieldType field.ftype && !field.name.isEmpty then
          replaceAllFlex field.name rv h2
        else h2)
    html

/-- `replaceField(html, field, value, submission)`.  `value = none` models
a JavaScript `undefined`/`null` value; a present empty string is falsy in
the source's `if (!value)` checks, hence the explicit empty tests. -/
def replaceField (fmtDate : TemplateField → Str → Option Str)
    (fmtTime : TemplateField → Str → Str)
    (html : Str) (field : TemplateField) (value : Option Str) : Str :=
  if field.replacements.isEmpty then html
  else
    match field.ftype with
    | FieldType.date =>
      match value with
      | none => html
      | some v =>
        if v.isEmpty then html
        else
          match fmtDate field v with
          | none => html
          | some rv => applyReplacements field rv html
    | FieldType.time =>
      match value with
      | none => html
      | some v =>
        if v.isEmpty then html
        else applyReplacements field (fmtTime field v) html
    | FieldType.color =>
      applyReplacements field
        (match value with
         | some v => if v.isEmpty then defaultColor else v
         | none => defaultColor)
        html
    | _ =>
      applyReplacements field
        (match value with
         | some v => v
         | none => [])
        html

/-! ### `processPeople` (template-engine, `src` part 019 lines 485–549)

Positional per-person replacement.  Each person is a parsed JSON value;
`uploadUrls` is the parsed headshot list, indexed by the person's
position.  For a text sub-field the source compiles each replacement
pattern with `new RegExp(pattern)` (no escaping) and replaces the first
occurrence of the first pattern that matches; the config patterns are
literal placeholder strings without regex metacharacters, so the compiled
regex matches exactly the literal pattern, which is what the model uses.
For the headshot sub-field the pattern is regex-escaped in the source, so
`src="<pattern>"` / `href="<pattern>"` are literal, replaced globally. -/

/-- Try each pattern in order; replace the first occurrence of the first
pattern that occurs anywhere in the document (the source's
`replaceFirst`). -/
def replaceFirstOfList (patterns : List Str) (rep : Str) (h : Str) : Str :=
  match patterns with
  | [] => h
  | p :: ps => if occursIn p h then replaceFirst p rep h else replaceFirstOfList ps rep h

/-- Process one sub-field of one person. -/
def processPersonField (pf : PersonField) (person : Json) (headshot : Option Json)
    (h : Str) : Str :=
  if pf.ftype = FieldType.image && pf.name = str "headshot" then
    match headshot with
    | some u =>
      if jsTruthy u then
        let uri := coerceJsonStr u
        pf.replacements.foldl
          (fun h2 pat =>
            if pat.isEmpty then h2
            else
              let srcPat := str "src=\"" ++ pat ++ [dq]
              let hrefPat := str "href=\"" ++ pat ++ [dq]
              if occursIn srcPat h2 then
                replaceAll srcPat (str "src=\"" ++ uri ++ [dq]) h2
              else if occursIn hrefPat h2 then
                replaceAll hrefPat (str "href=\"" ++ uri ++ [dq]) h2
              else h2)
          h
      else h
    | none => h
  else if pf.ftype = FieldType.text then
    match jsonGet person pf.name with
    | some v => if jsTruthy v then replaceFirstOfList pf.replacements (coerceJsonStr v) h else h
    | none => h
  else h

/-- Process every sub-field of one person. -/
def processOnePerson (fields : List PersonField) (person : Json) (headshot : Option Json)
    (h : Str) : Str :=
  fields.foldl (fun h2 pf => processPersonField pf person headshot h2) h

/-- The person loop: people in submission order, each paired with the
upload entry at its index. -/
def processPeopleLoop (fields : List PersonField) :
    List Json → List Json → Str → Str
  | [], _, h => h
  | p :: ps, uploads, h =>
    processPeopleLoop fields ps uploads.tail (processOnePerson fields p uploads.head? h)

/-- `processPeople(html, peopleField, people, uploadUrls)`. -/
def processPeople (peopleField : TemplateField) (people uploadUrls : List Json)
    (html : Str) : Str :=
  processPeopleLoop peopleField.subfields people uploadUrls html

/-! ### `findTextBinding` (HTML-to-layout converter V3, `src` part 016 lines 642–712)

Binding inference for a text node's content.  The source returns
`{ field, type: "text" }` or `null`; the type tag is the constant
`"text"`, so the model returns the field path alone. -/

/-- `parentTextContent || content` (an empty parent string is falsy). -/
def pickTextToCheck (parent : Option Str) (content : Str) : Str :=
  match parent with
  | some p => if p.isEmpty then content else p
  | none => content

/-- Scan one `people` field's sub-fields for a replacement pattern
contained in the text; on a hit the binding path is `people[0].<name>`. -/
def personFieldsMatch (textToCheck : Str) : List PersonField → Option Str
  | [] => none
  | pf :: pfs =>
    if pf.replacements.any (fun pat => occursIn pat textToCheck) then
      some (str "people[0]." ++ pf.name)
    else personFieldsMatch textToCheck pfs

/-- The config-pattern loop: for each field in order, first the field's
own replacement patterns, then (for a `people` field) its sub-fields. -/
def configFieldsMatch (textToCheck : Str) : List TemplateField → Option Str
  | [] => none
  | f :: fs =>
    if f.replacements.any (fun pat => occursIn pat textToCheck) then some f.name
    else if f.ftype = FieldType.people then
      match personFieldsMatch textToCheck f.subfields with
      | some path => some path
      | none => configFieldsMatch textToCheck fs
    else configFieldsMatch textToCheck fs

/-- The date-shaped pattern `\w+day,\s*\w+\s+\d+`. -/
def dateAtoms : List RAtom :=
  [⟨isWordCh, Quant.plus⟩, lit 'd', lit 'a', lit 'y', lit ',',
   ⟨isSpaceCh, Quant.star⟩, ⟨isWordCh, Quant.plus⟩,
   ⟨isSpaceCh, Quant.plus⟩, ⟨isDigitCh, Quant.plus⟩]

/-- The city/region/postal pattern `[A-Z][a-z]+,\s*[A-Z]{2}\s+[A-Z0-9\s]+`. -/
def cityAtoms : List RAtom :=
  [⟨isUpperCh, Quant.one⟩, ⟨isLowerCh, Quant.plus⟩, lit ',',
   ⟨isSpaceCh, Quant.star⟩, ⟨isUpperCh, Quant.one⟩, ⟨isUpperCh, Quant.one⟩,
   ⟨isSpaceCh, Quant.plus⟩,
   ⟨fun c => isUpperCh c || isDigitCh c || isSpaceCh c, Quant.plus⟩]

/-- The two-word Title-Case name pattern `^[A-Z][a-z]+\s+[A-Z][a-z]+$`. -/
def nameAtoms : List RAtom :=
  [⟨isUpperCh, Quant.one⟩, ⟨isLowerCh, Quant.plus⟩, ⟨isSpaceCh, Quant.plus⟩,
   ⟨isUpperCh, Quant.one⟩, ⟨isLowerCh, Quant.plus⟩]

/-- `findTextBinding(content, config, parentTextContent)`. -/
def findTextBinding (content : Str) (config : TemplateConfig) (parent : Option Str) :
    Option Str :=
  match configFieldsMatch (pickTextToCheck parent content) config.fields with
  | some f => some f
  | none =>
    if occursIn (str "Placeholder Text") content then some (str "eventTitle")
    else if reSearch dateAtoms content then some (str "eventDate")
    else if occursIn (str "Doors open") content || occursIn (str "Ouverture") content then
      some (str "doorTime")
    else if occursIn (str "Blvd") content || occursIn (str "Bd") content then
      some (str "addressLine")
    else if reSearch cityAtoms content then some (str "cityLine")
    else if occursIn (str "@") content then some (str "people[0].role")
    else if reMatchFull nameAtoms content then some (str "people[0].name")
    else if decide (content.length > 20) && !occursIn (str ":") content then
      some (str "people[0].talkTitle")
    else none

/-! Spec-side reformulation of the same inference, written as the spec
describes it: an ordered strategy list of matcher rules, evaluated
first-match-wins.  This definition follows the words of §4.3 of the
specification and is compared with the source-side `findTextBinding`. -/

/-- Evaluate an ordered list of rules, short-circuiting on the first rule
that yields a binding. -/
def firstSome (rules : List (Str → Option Str)) (content : Str) : Option Str :=
  match rules with
  | [] => none
  | r :: rs =>
    match r content with
    | some v => some v
    | none => firstSome rs content

/-- The nine rules of §4.3, in the spec's fixed priority order. -/
def bindingRules (config : TemplateConfig) (parent : Option Str) :
    List (Str → Option Str) :=
  [fun c => configFieldsMatch (pickTextToCheck parent c) config.fields,
   fun c => if occursIn (str "Placeholder Text") c then some (str "eventTitle") else none,
   fun c => if reSearch dateAtoms c then some (str "eventDate") else none,
   fun c =>
     if occursIn (str "Doors open") c || occursIn (str "Ouverture") c then
       some (str "doorTime")
     else none,
   fun c =>
     if occursIn (str "Blvd") c || occursIn (str "Bd") c then some (str "addressLine")
     else none,
   fun c => if reSearch cityAtoms c then some (str "cityLine") else none,
   fun c => if occursIn (str "@") c then some (str "people[0].role") else none,
   fun c => if reMatchFull nameAtoms c then some (str "people[0].name") else none,
   fun c =>
     if decide (c.length > 20) && !occursIn (str ":") c then
       some (str "people[0].talkTitle")
     else none]

/-! ### `renderTemplateWithConfig` — the pure string pipeline
(`src` part 019 lines 552–773)

The renderer's I/O stages (database/filesystem template lookup, asset and
font inlining, the broken-SVG fixup) read external state; the external
inputs they consume — the template document, the `JSON.parse` function,
the date/time formatters and the `lightenColor` helper (whose source is
outside the repository snapshot) — enter the model as explicit
parameters.  The string pipeline from the parsed columns to the final
document is embedded below. -/

/-- The stored submission columns the pipeline reads. -/
structure SubmissionData where
  peopleCol : Option Str
  uploadUrlsCol : Option Str
  primaryColor : Option Str
  columns : List (Str × Str)

/-- Lines 620–630: parse `submission.people`, defaulting to the empty
list when the column is missing, blank, fails to parse, or does not parse
to an array. -/
def parsePeopleColumn (jparse : Str → Option Json) (col : Option Str) : List Json :=
  match col with
  | none => []
  | some s =>
    if (trimStr s).isEmpty then []
    else
      match jparse s with
      | some (Json.arr xs) => xs
      | _ => []

/-- Lines 631–646: parse `submission.uploadUrls` into the headshot list —
`parsed.headshots` when that is an array, the parsed value itself when it
is an array (legacy format), otherwise empty; a parse failure (including
a thrown property access on `null`) is caught and yields empty. -/
def parseUploadHeadshots (jparse : Str → Option Json) (col : Option Str) : List Json :=
  match col with
  | none => []
  | some s =>
    if (trimStr s).isEmpty then []
    else
      match jparse s with
      | some j =>
        (match jsonGet j (str "headshots") with
         | some (Json.arr xs) => xs
         | _ =>
           match j with
           | Json.arr xs => xs
           | _ => [])
      | none => []

/-- Lines 696–710: parse `submission.uploadUrls` a second time into the
per-field image map (`parsed.images`). -/
def parseUploadImages (jparse : Str → Option Json) (col : Option Str) :
    List (Str × Json) :=
  match col with
  | none => []
  | some s =>
    if (trimStr s).isEmpty then []
    else
      match jparse s with
      | some j =>
        (match jsonGet j (str "images") with
         | some (Json.obj kvs) => kvs
         | _ => [])
      | none => []

/-- Lines 696–710: parse `submission.uploadUrls` into the dynamic-fields
map (`parsed.fields`). -/
def parseUploadFields (jparse : Str → Option Json) (col : Option Str) :
    List (Str × Json) :=
  match col with
  | none => []
  | some s =>
    if (trimStr s).isEmpty then []
    else
      match jparse s with
      | some j =>
        (match jsonGet j (str "fields") with
         | some (Json.obj kvs) => kvs
         | _ => [])
      | none => []

/-- Does the parsed value carry a `headshots` key holding an array? -/
def headshotsKeyArr (j : Json) : Bool :=
  match jsonGet j (str "headshots") with
  | some (Json.arr _) => true
  | _ => false

/-- Does the parsed value carry key `k` holding an object? -/
def keyIsObj (j : Json) (k : Str) : Bool :=
  match jsonGet j k with
  | some (Json.obj _) => true
  | _ => false

/-- The dynamic-fields map as strings: a `null` entry is skipped by the
source's `fromFields !== undefined && fromFields !== null` guard, the
rest are coerced at interpolation. -/
def dynamicFieldsToStrs (kvs : List (Str × Json)) : List (Str × Str) :=
  kvs.filterMap
    (fun kv =>
      match kv.2 with
      | Json.null => none
      | v => some (kv.1, coerceJsonStr v))

/-- Lines 736–744: the value for a non-people, non-image field — the
literal submission column when it is neither `undefined` nor `null`,
otherwise the dynamic-fields entry. -/
def resolveFieldValue (columns : List (Str × Str)) (dynamicFields : List (Str × Str))
    (name : Str) : Option Str :=
  match assocLookup columns name with
  | some v => some v
  | none => assocLookup dynamicFields name

/-- Case-insensitive variant of `isPrefOf` (for the `/#ff4e4e/gi`
replacement). -/
def isPrefOfCI : Str → Str → Bool
  | [], _ => true
  | _ :: _, [] => false
  | a :: as, b :: bs => a.toLower = b.toLower && isPrefOfCI as bs

/-- Case-insensitive first-occurrence index. -/
def findSubIdxCI (pat : Str) : Str → Option Nat
  | [] => if isPrefOfCI pat [] then some 0 else none
  | c :: rest =>
    if isPrefOfCI pat (c :: rest) then some 0
    else (findSubIdxCI pat rest).map (· + 1)

/-- Fuel-indexed worker for `replaceAllCI`. -/
def replaceAllCIAux (pat rep : Str) : Nat → Str → Str
  | 0, s => s
  | fuel + 1, s =>
    match findSubIdxCI pat s with
    | none => s
    | some i => s.take i ++ rep ++ replaceAllCIAux pat rep fuel (s.drop (i + pat.length))

/-- Case-insensitive global literal replacement (`/pat/gi`). -/
def replaceAllCI (pat rep s : Str) : Str := replaceAllCIAux pat rep s.length s

/-- Lines 665–689: the color-replacement stage. -/
def processColors (lighten : Str → Str) (config : TemplateConfig)
    (primaryColorCol : Option Str) (html : Str) : Str :=
  let primary :=
    match primaryColorCol with
    | some s => if (trimStr s).isEmpty then defaultColor else trimStr s
    | none => defaultColor
  let lighter := lighten primary
  let h1 := replaceAll defaultColor primary html
  let h2 := replaceAllCI (str "#ff4e4e") primary h1
  let h3 := replaceAll (str "#FF4E4E") primary h2
  config.colorReplacements.foldl
    (fun h kv =>
      if kv.2 = str "secondaryColor" then replaceAll kv.1 lighter h
      else if kv.2 = str "primaryColor" then replaceAll kv.1 primary h
      else h)
    h3

/-- Lines 725–735: replacement for a top-level image field (not named
`headshot`): `src="p"`/`href="p"` and the bare pattern, all global. -/
def processImageField (field : TemplateField) (imageUploads : List (Str × Json))
    (h : Str) : Str :=
  match jsonGet (Json.obj imageUploads) field.name with
  | some u =>
    if !jsTruthy u then h
    else
      let url := coerceJsonStr u
      field.replacements.foldl
        (fun h2 pat =>
          if pat.isEmpty then h2
          else
            let h3 := replaceAll (str "src=\"" ++ pat ++ [dq]) (str "src=\"" ++ url ++ [dq]) h2
            let h4 := replaceAll (str "href=\"" ++ pat ++ [dq]) (str "href=\"" ++ url ++ [dq]) h3
            replaceAll pat url h4)
        h
  | none => h

/-- Lines 719–759: the per-field loop. -/
def processFieldsLoop (fmtDate : TemplateField → Str → Option Str)
    (fmtTime : TemplateField → Str → Str)
    (people uploadUrls : List Json) (imageUploads : List (Str × Json))
    (dynamicFields : List (Str × Str)) (columns : List (Str × Str))
    (fields : List TemplateField) (html : Str) : Str :=
  fields.foldl
    (fun h field =>
      if field.ftype = FieldType.people then processPeople field people uploadUrls h
      else if field.ftype = FieldType.image && field.name ≠ str "headshot" then
        processImageField field imageUploads h
      else
        replaceField fmtDate fmtTime h field (resolveFieldValue columns dynamicFields field.name))
    html

/-- The pure rendering pipeline of `renderTemplateWithConfig`: color
replacements, then the per-field loop over the parsed columns. -/
def renderCore (jparse : Str → Option Json)
    (fmtDate : TemplateField → Str → Option Str)
    (fmtTime : TemplateField → Str → Str)
    (lighten : Str → Str)
    (config : TemplateConfig) (sub : SubmissionData) (html : Str) : Str :=
  let people := parsePeopleColumn jparse sub.peopleCol
  let uploadUrls := parseUploadHeadshots jparse sub.uploadUrlsCol
  let imageUploads := parseUploadImages jparse sub.uploadUrlsCol
  let dynamicFields := dynamicFieldsToStrs (parseUploadFields jparse sub.uploadUrlsCol)
  let h1 := processColors lighten config sub.primaryColor html
  processFieldsLoop fmtDate fmtTime people uploadUrls imageUploads dynamicFields
    sub.columns config.fields h1

/-! ### Figma export nodes and `asMaskedImageGroup`
(`src/lib/figma-template-generator.ts` lines 16–19 and 95–112) -/

/-- One paint entry of a node's `fills`. -/
structure FigmaPaint where
  ptype : Str
  imageRef : Option Str

/-- A design-export node (the fields `asMaskedImageGroup` and
`extractBinding` read; `fills` absent is the empty list). -/
inductive FigmaNode where
  | mk (id : Str) (name : Str) (ntype : Str) (fills : List FigmaPaint)
      (children : List FigmaNode)

/-- Projection: node id. -/
def fnId : FigmaNode → Str
  | FigmaNode.mk i _ _ _ _ => i

/-- Projection: display name. -/
def fnName : FigmaNode → Str
  | FigmaNode.mk _ n _ _ _ => n

/-- Projection: type tag. -/
def fnType : FigmaNode → Str
  | FigmaNode.mk _ _ t _ _ => t

/-- Projection: fills. -/
def fnFills : FigmaNode → List FigmaPaint
  | FigmaNode.mk _ _ _ f _ => f

/-- Projection: children. -/
def fnChildren : FigmaNode → List FigmaNode
  | FigmaNode.mk _ _ _ _ c => c

/-- Match `{{\s*([\w-]+)\s*}}` at the head of `s`, returning the captured
identifier.  The identifier class is word characters and `-`; since an
identifier character can neither extend into the closing whitespace nor
the braces, the greedy expansion is the unique one. -/
def matchBindingAt (s : Str) : Option Str :=
  match s with
  | b1 :: b2 :: rest =>
    if b1 = lbrace && b2 = lbrace then
      let r1 := rest.dropWhile isSpaceCh
      let ident := r1.takeWhile (fun c => isWordCh c || c = '-')
      if ident.isEmpty then none
      else
        let r2 := (r1.drop ident.length).dropWhile isSpaceCh
        match r2 with
        | e1 :: e2 :: _ => if e1 = rbrace && e2 = rbrace then some ident else none
        | _ => none
    else none
  | _ => none

/-- `extractBinding(name)`: the first `{{ identifier }}` marker in a
layer name (the source additionally trims the captured identifier, a
no-op for the word-character class). -/
def extractBinding : Str → Option Str
  | [] => none
  | c :: s1 =>
    match matchBindingAt (c :: s1) with
    | some ident => some ident
    | none => extractBinding s1

/-- `fills?.some(f => f.type === "IMAGE" && f.imageRef)` (an `imageRef`
must be present and non-empty to be truthy). -/
def hasImageFill (n : FigmaNode) : Bool :=
  (fnFills n).any
    (fun f =>
      f.ptype = str "IMAGE" &&
        (match f.imageRef with
         | some r => !r.isEmpty
         | none => false))

/-- `n.type === "VECTOR" || n.type === "RECTANGLE" || n.type === "ELLIPSE"`. -/
def isShape (n : FigmaNode) : Bool :=
  fnType n = str "VECTOR" || fnType n = str "RECTANGLE" || fnType n = str "ELLIPSE"

/-- The result of masked-image-group detection. -/
structure MaskedImageGroup where
  maskNode : FigmaNode
  imageNode : FigmaNode
  binding : Option Str

/-- `asMaskedImageGroup(group)`: a GROUP with exactly two children, one an
image-filled node and the other a shape; the first branch prefers the
first-listed child as the image. -/
def asMaskedImageGroup (group : FigmaNode) : Option MaskedImageGroup :=
  if fnType group ≠ str "GROUP" then none
  else
    match fnChildren group with
    | [a, b] =>
      if hasImageFill a && isShape b then
        some ⟨b, a, extractBinding (fnName a)⟩
      else if hasImageFill b && isShape a then
        some ⟨a, b, extractBinding (fnName b)⟩
      else none
    | _ => none

/-! ### The schema loader (`src/lib/node-registry.ts` lines 22–63)

`getNodeTemplateSchema` reads a stored schema file and returns
`JSON.parse(content) as TemplateSchema` — a type assertion, not a
validation.  The file system (existence + read + parse combined; a parse
failure behaves exactly like a missing file in both branches) is a
function from paths to optional schema values.  The per-process cache is
omitted: it only replays previously returned values.  The schema model
carries the tree of node ids, which is what invariant 1 (§3) constrains. -/

/-- A schema node: an id and children. -/
inductive SchemaNode where
  | mk (id : Str) (children : List SchemaNode)

/-- The slice of a stored `TemplateSchema` the uniqueness invariant
reads. -/
structure TemplateSchemaModel where
  sid : Str
  root : SchemaNode

mutual

/-- All node ids of a tree, in pre-order. -/
def schemaNodeIds : SchemaNode → List Str
  | SchemaNode.mk i cs => i :: schemaNodeIdsList cs

/-- See `schemaNodeIds`. -/
def schemaNodeIdsList : List SchemaNode → List Str
  | [] => []
  | n :: ns => schemaNodeIds n ++ schemaNodeIdsList ns

end

/-- Does a list contain a repeated entry? -/
def hasDuplicates : List Str → Bool
  | [] => false
  | x :: xs => xs.contains x || hasDuplicates xs

/-- A schema violating invariant 1 (duplicate node ids). -/
def hasDupIds (s : TemplateSchemaModel) : Bool := hasDuplicates (schemaNodeIds s.root)

/-- `templates/<id>/schema-layout-<variant>.json`. -/
def variantSchemaPath (tid vid : Str) : Str :=
  str "templates/" ++ tid ++ str "/schema-layout-" ++ vid ++ str ".json"

/-- `templates/<id>/schema.json`. -/
def unifiedSchemaPath (tid : Str) : Str := str "templates/" ++ tid ++ str "/schema.json"

/-- `getNodeTemplateSchema(templateId, variantId)` over a file-system
model `fs` (missing file and parse failure are both `none`). -/
def getNodeTemplateSchema (fs : Str → Option TemplateSchemaModel)
    (templateId : Str) (variantId : Option Str) : Option TemplateSchemaModel :=
  match variantId with
  | some vid =>
    (match fs (variantSchemaPath templateId vid) with
     | some schema => some schema
     | none => fs (unifiedSchemaPath templateId))
  | none => fs (unifiedSchemaPath templateId)

/-! ### The markup root container
(`src` part 016: `parseInlineStyles` lines 54–148 restricted to the
`width`/`height` declarations it reads here, `getAttribute`/`getStyles`
lines 154–165, `findRootContainer` lines 349–364) -/

/-- A parsed DOM node (parse5 tree shape: elements, text, comments). -/
inductive DomNode where
  | element (tag : Str) (attrs : List (Str × Str)) (children : List DomNode)
  | textNode (v : Str)
  | commentNode

/-- The parse5 `nodeName` of a node. -/
def nodeNameOf : DomNode → Str
  | DomNode.element t _ _ => t
  | DomNode.textNode _ => str "#text"
  | DomNode.commentNode => str "#comment"

/-- `childNodes` (empty for non-elements). -/
def childrenOf : DomNode → List DomNode
  | DomNode.element _ _ cs => cs
  | _ => []

/-- `element.attrs?.find(a => a.name === name)?.value`. -/
def getAttribute (n : DomNode) (name : Str) : Option Str :=
  match n with
  | DomNode.element _ attrs _ => assocLookup attrs name
  | _ => none

/-- Digits to a natural number. -/
def digitsToNat (ds : Str) : Nat :=
  ds.foldl (fun a c => a * 10 + (c.toNat - 48)) 0

/-- JavaScript `parseFloat` on the decimal fragment CSS values use
(optional sign, integer digits, optional fraction; parsing stops at the
first invalid character, e.g. the `px` unit; `none` is `NaN`).  The value
`sign · (i + f / 10^k)` is assembled as the single fraction
`sign · (i · 10^k + f) / 10^k` so that it evaluates by kernel
reduction. -/
def parseFloatQ (s : Str) : Option ℚ :=
  let t := s.dropWhile isSpaceCh
  let signed : ℤ × Str :=
    match t with
    | c :: r => if c = '-' then (-1, r) else if c = '+' then (1, r) else (1, t)
    | [] => (1, t)
  let intPart := signed.2.takeWhile isDigitCh
  let t2 := signed.2.drop intPart.length
  let fracPart : Str :=
    match t2 with
    | c :: r => if c = '.' then r.takeWhile isDigitCh else []
    | [] => []
  if intPart.isEmpty && fracPart.isEmpty then none
  else
    some (mkRat
      (signed.1 * ((digitsToNat intPart : ℤ) * 10 ^ fracPart.length + (digitsToNat fracPart : ℤ)))
      (10 ^ fracPart.length))

/-- A parsed CSS dimension: a number, a kept string (`calc`/percent), or
`NaN` from a failed `parseFloat`. -/
inductive DimVal where
  | num (q : ℚ)
  | raw (s : Str)
  | nan
deriving DecidableEq

/-- The `width`/`height` case of `parseInlineStyles`: `calc`/percent
values are kept as strings, the rest go through `parseFloat`. -/
def parseDim (value : Str) : DimVal :=
  if occursIn (str "calc") value || occursIn (str "%") value then DimVal.raw value
  else
    match parseFloatQ value with
    | some q => DimVal.num q
    | none => DimVal.nan

/-- The slice of `ParsedStyles` that `findRootContainer` reads. -/
structure ParsedStyles where
  width : Option DimVal := none
  height : Option DimVal := none
deriving DecidableEq

/-- One `key: value` declaration of an inline style. -/
def parseStylePair (styles : ParsedStyles) (pair : Str) : ParsedStyles :=
  match (splitOnChar ':' pair).map trimStr with
  | key :: value :: _ =>
    if key.isEmpty || value.isEmpty then styles
    else if key = str "width" then { styles with width := some (parseDim value) }
    else if key = str "height" then { styles with height := some (parseDim value) }
    else styles
  | _ => styles

/-- `parseInlineStyles(styleAttr)`, restricted to the declarations read
by `findRootContainer`. -/
def parseInlineStyles (styleAttr : Str) : ParsedStyles :=
  ((splitOnChar ';' styleAttr).filter (fun p => !(trimStr p).isEmpty)).foldl
    parseStylePair {}

/-- `getStyles(element)`. -/
def getStyles (n : DomNode) : ParsedStyles :=
  match getAttribute n (str "style") with
  | some a => parseInlineStyles a
  | none => {}

/-- The loop body of `findRootContainer`: the first `div` child whose
inline width is the number `1080` and height the number `1350`. -/
def findRootLoop : List DomNode → Option DomNode
  | [] => none
  | child :: rest =>
    if nodeNameOf child = str "div" then
      (if (getStyles child).width = some (DimVal.num 1080) ∧
          (getStyles child).height = some (DimVal.num 1350) then some child
       else findRootLoop rest)
    else findRootLoop rest

/-- `findRootContainer(body)`. -/
def findRootContainer (body : DomNode) : Option DomNode :=
  findRootLoop (childrenOf body)

/-! ### Raw-design coordinate normalization
(`src/scripts/raw-figma-to-import.ts`: `getBox` lines 76–80,
`collectBounds` lines 82–86, `mapNode` lines 101–141, origin computation
in `main` lines 162–176) -/

/-- An `absoluteBoundingBox`. -/
structure BBox where
  bx : ℚ
  by_ : ℚ
  bw : ℚ
  bh : ℚ
deriving DecidableEq

/-- A raw design-export node: optional bounding box and children (the
text-style fields of `mapNode` are not read by the coordinate logic). -/
inductive RawFigmaNode where
  | mk (id : Str) (ntype : Str) (box : Option BBox) (children : List RawFigmaNode)

/-- `getBox(node)`. -/
def getBox : RawFigmaNode → Option BBox
  | RawFigmaNode.mk _ _ b _ => b

/-- Projection: children. -/
def rawChildren : RawFigmaNode → List RawFigmaNode
  | RawFigmaNode.mk _ _ _ cs => cs

/-- Projection: id. -/
def rawId : RawFigmaNode → Str
  | RawFigmaNode.mk i _ _ _ => i

mutual

/-- `collectBounds(node, out)`: every present bounding box, node before
children. -/
def collectBounds : RawFigmaNode → List BBox
  | RawFigmaNode.mk _ _ b cs =>
    (match b with
     | some bb => [bb]
     | none => []) ++ collectBoundsList cs

/-- See `collectBounds`. -/
def collectBoundsList : List RawFigmaNode → List BBox
  | [] => []
  | n :: ns => collectBounds n ++ collectBoundsList ns

end

/-- JavaScript `Math.round` (half away from zero upward: `⌊q + 1/2⌋`). -/
def jsRound (q : ℚ) : ℤ := ⌊q + 1 / 2⌋

/-- `Math.round(q * 100) / 100`. -/
def round2 (q : ℚ) : ℚ := ((jsRound (q * 100) : ℚ)) / 100

/-- A mapped node of the import format. -/
inductive MappedNode where
  | mk (id : Str) (x y width height : ℚ) (children : List MappedNode)

/-- Projection: mapped x. -/
def mappedX : MappedNode → ℚ
  | MappedNode.mk _ x _ _ _ _ => x

/-- Projection: mapped y. -/
def mappedY : MappedNode → ℚ
  | MappedNode.mk _ _ y _ _ _ => y

mutual

/-- `mapNode(raw, originX, originY)`: subtract the origin from a present
box (a missing box maps to zeroes), round to two decimals, recurse. -/
def mapNode (raw : RawFigmaNode) (originX originY : ℚ) : MappedNode :=
  match raw with
  | RawFigmaNode.mk i _ b cs =>
    let x : ℚ := match b with | some bb => bb.bx - originX | none => 0
    let y : ℚ := match b with | some bb => bb.by_ - originY | none => 0
    let w : ℚ := match b with | some bb => bb.bw | none => 0
    let h : ℚ := match b with | some bb => bb.bh | none => 0
    MappedNode.mk i (round2 x) (round2 y) (round2 w) (round2 h)
      (mapNodeList cs originX originY)

/-- See `mapNode`. -/
def mapNodeList : List RawFigmaNode → ℚ → ℚ → List MappedNode
  | [], _, _ => []
  | n :: ns, ox, oy => mapNode n ox oy :: mapNodeList ns ox oy

end

/-- The origin `main` subtracts: the minimum x and minimum y over all
collected bounding boxes (`Math.min(...bounds.map(b => b.x))`), `none`
when no node has a box (the script exits there). -/
def rawOrigin (raw : RawFigmaNode) : Option (ℚ × ℚ) :=
  match collectBounds raw with
  | [] => none
  | b :: bs =>
    some ((bs.map BBox.bx).foldl min b.bx, (bs.map BBox.by_).foldl min b.by_)

/-- The script's conversion: compute the origin, then map the root. -/
def convertRaw (raw : RawFigmaNode) : Option MappedNode :=
  match rawOrigin raw with
  | some oxy => some (mapNode raw oxy.1 oxy.2)
  | none => none

/-! ## Helper lemmas -/

/-- `occursIn` is the defined projection of `findSubIdx`. -/
theorem occursIn_of_findSubIdx {pat s : Str} {i : Nat}
    (h : findSubIdx pat s = some i) : occursIn pat s = true := by
  simp [occursIn, h]

/-- A failed search means `findSubIdx` is `none`. -/
theorem findSubIdx_eq_none {pat s : Str} (h : occursIn pat s = false) :
    findSubIdx pat s = none := by
  unfold occursIn at h
  cases hf : findSubIdx pat s with
  | none => rfl
  | some i => rw [hf] at h; simp at h

/-- Replacement at a known first-occurrence index. -/
theorem replaceFirst_at {pat s : Str} {i : Nat} (rep : Str)
    (h : findSubIdx pat s = some i) :
    replaceFirst pat rep s = s.take i ++ rep ++ s.drop (i + pat.length) := by
  unfold replaceFirst
  rw [h]

/-- Dropping a two-part leading segment of an append. -/
theorem drop_append_two (X P Y : Str) :
    (X ++ (P ++ Y)).drop (X.length + P.length) = Y := by
  rw [← List.append_assoc, ← List.length_append]
  exact List.drop_left _ _

/-- `replaceFirst` on a document whose first pattern occurrence separates
a prefix from a suffix rewrites exactly that occurrence. -/
theorem replaceFirst_append {pat : Str} (rep X Y : Str)
    (h : findSubIdx pat (X ++ (pat ++ Y)) = some X.length) :
    replaceFirst pat rep (X ++ (pat ++ Y)) = X ++ (rep ++ Y) := by
  rw [replaceFirst_at rep h, List.take_left, drop_append_two]
  simp [List.append_assoc]

/-- `replaceAllAux` leaves a pattern-free string unchanged, for any fuel. -/
theorem replaceAllAux_no_occur (pat rep : Str) (fuel : Nat) {s : Str}
    (h : occursIn pat s = false) : replaceAllAux pat rep fuel s = s := by
  cases fuel with
  | zero => rfl
  | succ n => simp only [replaceAllAux, findSubIdx_eq_none h]

/-- `replaceAll` on a document with exactly one pattern occurrence. -/
theorem replaceAll_single {pat : Str} (rep X Y : Str) (hp : pat ≠ [])
    (h : findSubIdx pat (X ++ (pat ++ Y)) = some X.length)
    (hY : occursIn pat Y = false) :
    replaceAll pat rep (X ++ (pat ++ Y)) = X ++ (rep ++ Y) := by
  unfold replaceAll
  obtain ⟨n, hn⟩ : ∃ n, (X ++ (pat ++ Y)).length = n + 1 := by
    cases pat with
    | nil => exact absurd rfl hp
    | cons c cs =>
      refine ⟨X.length + cs.length + Y.length, ?_⟩
      simp [List.length_append]
      omega
  rw [hn]
  simp only [replaceAllAux, h]
  rw [List.take_left, drop_append_two, replaceAllAux_no_occur pat rep n hY]
  simp [List.append_assoc]

/-- Folding `min` over a list bounded below by the seed returns the
seed. -/
theorem foldl_min_eq_seed (l : List ℚ) (a : ℚ) (h : ∀ x ∈ l, a ≤ x) :
    l.foldl min a = a := by
  induction l with
  | nil => rfl
  | cons x xs ih =>
    have hax : min a x = a := min_eq_left (h x (by simp))
    simp only [List.foldl_cons, hax]
    exact ih (fun y hy => h y (by simp [hy]))

/-! ## Claim theorems -/

/-- C2: for a bound field, a literal top-level submission value (any
value that is neither `undefined` nor `null`) takes priority; the
dynamic-fields map is consulted exactly when the literal value is
absent. -/
theorem resolveFieldValue_literal_wins (cols dyn : List (Str × Str)) (name v : Str) :
    (assocLookup cols name = some v → resolveFieldValue cols dyn name = some v)
    ∧ (assocLookup cols name = none →
        resolveFieldValue cols dyn name = assocLookup dyn name) := by
  constructor <;> intro h <;> unfold resolveFieldValue <;> rw [h]

/-- C2 witness: a field supplied both literally and dynamically resolves
to the literal value. -/
theorem resolveFieldValue_literal_wins_witness :
    resolveFieldValue [(str "eventTitle", str "Launch Night")]
        [(str "eventTitle", str "Other")] (str "eventTitle")
      = some (str "Launch Night") :=
  (resolveFieldValue_literal_wins [(str "eventTitle", str "Launch Night")]
      [(str "eventTitle", str "Other")] (str "eventTitle") (str "Launch Night")).1
    (by decide)

/-- C6 counterexample: the schema loader returns a stored schema with a
duplicate node id as-is — construction/loading does not reject the
invariant-1 violation. -/
theorem getNodeTemplateSchema_dup_cex :
    (getNodeTemplateSchema
        (fun p =>
          if p = unifiedSchemaPath (str "t") then
            some ⟨str "t", SchemaNode.mk (str "a") [SchemaNode.mk (str "a") []]⟩
          else none)
        (str "t") none)
      = some ⟨str "t", SchemaNode.mk (str "a") [SchemaNode.mk (str "a") []]⟩
    ∧ hasDupIds ⟨str "t", SchemaNode.mk (str "a") [SchemaNode.mk (str "a") []]⟩ = true := by
  constructor
  · rfl
  · rfl

/-- C6 amended: the loader performs no invariant validation at all — any
stored schema that parses is returned unchanged, a duplicate-node-id
schema included. -/
theorem getNodeTemplateSchema_no_validation (fs : Str → Option TemplateSchemaModel)
    (tid : Str) (schema : TemplateSchemaModel)
    (_hdup : hasDupIds schema = true)
    (hfs : fs (unifiedSchemaPath tid) = some schema) :
    getNodeTemplateSchema fs tid none = some schema := by
  unfold getNodeTemplateSchema
  exact hfs

/-- C6 amended witness. -/
theorem getNodeTemplateSchema_no_validation_witness :
    getNodeTemplateSchema
        (fun p =>
          if p = unifiedSchemaPath (str "u") then
            some ⟨str "u", SchemaNode.mk (str "n") [SchemaNode.mk (str "n") []]⟩
          else none)
        (str "u") none
      = some ⟨str "u", SchemaNode.mk (str "n") [SchemaNode.mk (str "n") []]⟩ :=
  getNodeTemplateSchema_no_validation _ (str "u")
    ⟨str "u", SchemaNode.mk (str "n") [SchemaNode.mk (str "n") []]⟩
    (by decide) (by simp)

/-- C4 counterexample: when both children are image-filled rectangles
(each child is simultaneously a shape and an image carrier, so the
claim's hypothesis holds of the pair), swapping the two children swaps
the mask/image assignment instead of preserving it. -/
theorem asMaskedImageGroup_swap_cex :
    ((asMaskedImageGroup
          (FigmaNode.mk (str "g") (str "g") (str "GROUP") []
            [FigmaNode.mk (str "a") (str "a") (str "RECTANGLE")
                [⟨str "IMAGE", some (str "r1")⟩] [],
             FigmaNode.mk (str "b") (str "b") (str "RECTANGLE")
                [⟨str "IMAGE", some (str "r2")⟩] []])).map
        (fun m => (fnId m.maskNode, fnId m.imageNode))
      = some (str "b", str "a"))
    ∧ ((asMaskedImageGroup
          (FigmaNode.mk (str "g") (str "g") (str "GROUP") []
            [FigmaNode.mk (str "b") (str "b") (str "RECTANGLE")
                [⟨str "IMAGE", some (str "r2")⟩] [],
             FigmaNode.mk (str "a") (str "a") (str "RECTANGLE")
                [⟨str "IMAGE", some (str "r1")⟩] []])).map
        (fun m => (fnId m.maskNode, fnId m.imageNode))
      = some (str "a", str "b"))
    ∧ (some (str "b", str "a") : Option (Str × Str)) ≠ some (str "a", str "b") := by
  refine ⟨rfl, rfl, ?_⟩
  decide

/-- C4 amended: masked-image-group detection on a two-child GROUP is
order independent whenever only one of the two children carries an image
paint: either order detects the image-filled child as the clipped image
and the shape child as the mask.  A non-GROUP container, a container
with a child count other than two, and a two-child GROUP with no
image+shape combination are never detected.  (When both children carry
image paints and both are shapes, the first-listed child becomes the
image, so swapping exchanges the roles.) -/
theorem asMaskedImageGroup_order_independent (gid gname : Str)
    (gfills : List FigmaPaint) (a b : FigmaNode)
    (ha : hasImageFill a = true) (hb : isShape b = true)
    (hbi : hasImageFill b = false) :
    (asMaskedImageGroup (FigmaNode.mk gid gname (str "GROUP") gfills [a, b])
        = some ⟨b, a, extractBinding (fnName a)⟩)
    ∧ (asMaskedImageGroup (FigmaNode.mk gid gname (str "GROUP") gfills [b, a])
        = some ⟨b, a, extractBinding (fnName a)⟩)
    ∧ (∀ t cs, t ≠ str "GROUP" →
        asMaskedImageGroup (FigmaNode.mk gid gname t gfills cs) = none)
    ∧ (∀ cs, cs.length ≠ 2 →
        asMaskedImageGroup (FigmaNode.mk gid gname (str "GROUP") gfills cs) = none)
    ∧ (∀ x y, ¬(hasImageFill x = true ∧ isShape y = true) →
        ¬(hasImageFill y = true ∧ isShape x = true) →
        asMaskedImageGroup (FigmaNode.mk gid gname (str "GROUP") gfills [x, y]) = none) := by
  refine ⟨?_, ?_, ?_, ?_, ?_⟩
  · unfold asMaskedImageGroup
    simp [fnType, fnChildren, ha, hb]
  · unfold asMaskedImageGroup
    simp [fnType, fnChildren, ha, hb, hbi]
  · intro t cs ht
    unfold asMaskedImageGroup
    simp [fnType, ht]
  · intro cs hcs
    unfold asMaskedImageGroup
    simp only [fnType, fnChildren]
    rw [if_neg (by simp)]
    match cs, hcs with
    | [], _ => rfl
    | [_], _ => rfl
    | [_, _], h => exact absurd rfl h
    | _ :: _ :: _ :: _, _ => rfl
  · intro x y hxy hyx
    unfold asMaskedImageGroup
    have h1 : (hasImageFill x && isShape y) = false := by
      cases hx : hasImageFill x <;> cases hy : isShape y <;> simp_all
    have h2 : (hasImageFill y && isShape x) = false := by
      cases hx : hasImageFill y <;> cases hy : isShape x <;> simp_all
    simp [fnType, fnChildren, h1, h2]

/-- C4 amended witness: a vector mask and an image-filled rectangle, in
both orders. -/
theorem asMaskedImageGroup_order_independent_witness :
    asMaskedImageGroup (FigmaNode.mk (str "g") (str "g") (str "GROUP") []
        [FigmaNode.mk (str "img") (str "img") (str "RECTANGLE")
            [⟨str "IMAGE", some (str "ref")⟩] [],
         FigmaNode.mk (str "msk") (str "msk") (str "VECTOR") [] []])
      = some ⟨FigmaNode.mk (str "msk") (str "msk") (str "VECTOR") [] [],
              FigmaNode.mk (str "img") (str "img") (str "RECTANGLE")
                [⟨str "IMAGE", some (str "ref")⟩] [],
              none⟩
    ∧ asMaskedImageGroup (FigmaNode.mk (str "g") (str "g") (str "GROUP") []
        [FigmaNode.mk (str "msk") (str "msk") (str "VECTOR") [] [],
         FigmaNode.mk (str "img") (str "img") (str "RECTANGLE")
            [⟨str "IMAGE", some (str "ref")⟩] []])
      = some ⟨FigmaNode.mk (str "msk") (str "msk") (str "VECTOR") [] [],
              FigmaNode.mk (str "img") (str "img") (str "RECTANGLE")
                [⟨str "IMAGE", some (str "ref")⟩] [],
              none⟩ := by
  have h := asMaskedImageGroup_order_independent (str "g") (str "g") []
    (FigmaNode.mk (str "img") (str "img") (str "RECTANGLE")
      [⟨str "IMAGE", some (str "ref")⟩] [])
    (FigmaNode.mk (str "msk") (str "msk") (str "VECTOR") [] [])
    (by decide) (by decide) (by decide)
  exact ⟨h.1, h.2.1⟩

/-- C5 counterexample: a text binding with no resolvable value does not
leave its placeholder in place — `replaceField` substitutes the empty
string, deleting the placeholder from the document. -/
theorem replaceField_text_missing_cex :
    replaceField (fun _ _ => none) (fun _ v => v) (str "aPb")
        ⟨str "t", FieldType.text, [str "P"], []⟩ none = str "ab"
    ∧ str "ab" ≠ str "aPb" := by
  refine ⟨rfl, by decide⟩

/-- C5 amended: compilation never fails on a binding with no resolvable
value, and date, time and image bindings (top-level image fields and
person headshots alike) leave their placeholder content in place
unchanged; a text binding's placeholder, however, is replaced by the
empty string and a color binding's by the default color `#3D9DFF`; the
condition is logged, not returned to the caller (the functions' only
output is the document). -/
theorem unresolved_binding_behavior
    (fmtDate : TemplateField → Str → Option Str) (fmtTime : TemplateField → Str → Str) :
    (∀ field html, field.ftype = FieldType.date →
        replaceField fmtDate fmtTime html field none = html)
    ∧ (∀ field html, field.ftype = FieldType.time →
        replaceField fmtDate fmtTime html field none = html)
    ∧ (∀ field imageUploads html,
        jsonGet (Json.obj imageUploads) field.name = none →
        processImageField field imageUploads html = html)
    ∧ (∀ field imageUploads u html,
        jsonGet (Json.obj imageUploads) field.name = some u → jsTruthy u = false →
        processImageField field imageUploads html = html)
    ∧ (∀ pf person html, pf.ftype = FieldType.image → pf.name = str "headshot" →
        processPersonField pf person none html = html)
    ∧ (∀ nm sub pat A B, pat ≠ [] →
        findSubIdx pat (A ++ (pat ++ B)) = some A.length →
        occursIn pat B = false →
        replaceField fmtDate fmtTime (A ++ (pat ++ B))
            ⟨nm, FieldType.text, [pat], sub⟩ none
          = A ++ B)
    ∧ (∀ nm sub pat A B, pat ≠ [] →
        findSubIdx pat (A ++ (pat ++ B)) = some A.length →
        occursIn pat B = false →
        replaceField fmtDate fmtTime (A ++ (pat ++ B))
            ⟨nm, FieldType.color, [pat], sub⟩ none
          = A ++ (defaultColor ++ B)) := by
  refine ⟨?_, ?_, ?_, ?_, ?_, ?_, ?_⟩
  · intro field html hft
    unfold replaceField
    rw [hft]
    split <;> rfl
  · intro field html hft
    unfold replaceField
    rw [hft]
    split <;> rfl
  · intro field imageUploads html hlk
    unfold processImageField
    rw [hlk]
  · intro field imageUploads u html hlk htr
    unfold processImageField
    rw [hlk]
    simp [htr]
  · intro pf person html h1 h2
    unfold processPersonField
    simp [h1, h2]
  · intro nm sub pat A B hp h hB
    have hrw : replaceAll pat [] (A ++ (pat ++ B)) = A ++ ([] ++ B) :=
      replaceAll_single [] A B hp h hB
    have hne : ¬(A ++ ([] ++ B) = A ++ (pat ++ B)) := by
      intro heq
      have := List.append_cancel_left heq
      have hlen := congrArg List.length this
      simp [List.length_append] at hlen
      exact hp hlen
    unfold replaceField applyReplacements
    simp only [List.foldl_cons, List.foldl_nil, hrw]
    simp [hp, hne]
  · intro nm sub pat A B hp h hB
    have hrw : replaceAll pat defaultColor (A ++ (pat ++ B)) = A ++ (defaultColor ++ B) :=
      replaceAll_single defaultColor A B hp h hB
    unfold replaceField applyReplacements
    simp only [List.foldl_cons, List.foldl_nil, hrw]
    simp [hp, isFlexFieldType]

/-- C5 amended witness: an unresolved date binding and an unresolved
image binding (top-level and headshot) survive in place; an unresolved
text binding's placeholder is deleted. -/
theorem unresolved_binding_behavior_witness :
    replaceField (fun _ _ => none) (fun _ v => v) (str "x DATE y")
        ⟨str "eventDate", FieldType.date, [str "DATE"], []⟩ none
      = str "x DATE y"
    ∧ processImageField ⟨str "logo", FieldType.image, [str "IMG"], []⟩ [] (str "x IMG y")
      = str "x IMG y"
    ∧ processPersonField ⟨str "headshot", FieldType.image, [str "PHOTO"]⟩
        (Json.obj []) none (str "x PHOTO y")
      = str "x PHOTO y"
    ∧ replaceField (fun _ _ => none) (fun _ v => v) (str "x " ++ (str "TITLE" ++ str " y"))
        ⟨str "eventTitle", FieldType.text, [str "TITLE"], []⟩ none
      = str "x " ++ str " y" := by
  have h := unresolved_binding_behavior (fun _ _ => none) (fun _ v => v)
  exact ⟨h.1 ⟨str "eventDate", FieldType.date, [str "DATE"], []⟩ (str "x DATE y") rfl,
         h.2.2.1 ⟨str "logo", FieldType.image, [str "IMG"], []⟩ [] (str "x IMG y") rfl,
         h.2.2.2.2.1 ⟨str "headshot", FieldType.image, [str "PHOTO"]⟩ (Json.obj [])
           (str "x PHOTO y") rfl rfl,
         h.2.2.2.2.2.1 (str "eventTitle") [] (str "TITLE") (str "x ") (str " y")
           (by decide) (by decide) (by decide)⟩

/-- One-person text-sub-field step of `processPeople`: a person with a
non-empty value for the sub-field replaces the first occurrence. -/
theorem processPersonField_text (nm pat v : Str) (hv : v ≠ []) (html : Str)
    (hocc : occursIn pat html = true) :
    processPersonField ⟨nm, FieldType.text, [pat]⟩
        (Json.obj [(nm, Json.jstr v)]) none html
      = replaceFirst pat v html := by
  unfold processPersonField
  simp [jsonGet, List.find?, jsTruthy, coerceJsonStr, replaceFirstOfList, hocc, hv]

/-- C1 counterexample: with pattern `R`, document `RR` and people values
`[R, S]`, the second list entry resolves into the *first* occurrence
(the result is `SR`), overwriting the first entry's resolution, instead
of the claimed occurrence-per-entry assignment (`RS`). -/
theorem processPeople_same_occurrence_cex :
    processPeople ⟨str "people", FieldType.people, [], [⟨str "role", FieldType.text, [str "R"]⟩]⟩
        [Json.obj [(str "role", Json.jstr (str "R"))],
         Json.obj [(str "role", Json.jstr (str "S"))]]
        [] (str "RR")
      = str "SR"
    ∧ str "SR" ≠ str "RS" := by
  refine ⟨rfl, by decide⟩

/-- C1 amended: occurrence `i` of a literal person-field pattern is
bound to list entry `i` provided the values substituted earlier do not
re-introduce a match of the pattern before the next remaining
occurrence — made precise by requiring that the pattern's first match in
the original document is the first placeholder and its first match after
entry 0's substitution is the second placeholder.  (The counterexample
violates this side condition: entry 0's value itself matches the
pattern, so entry 1 re-consumes the same occurrence and overwrites it.) -/
theorem processPeople_assigns_occurrences_in_order
    (nm pat v0 v1 A B C : Str) (hv0 : v0 ≠ []) (hv1 : v1 ≠ [])
    (h1 : findSubIdx pat (A ++ (pat ++ (B ++ (pat ++ C)))) = some A.length)
    (h2 : findSubIdx pat ((A ++ (v0 ++ B)) ++ (pat ++ C)) = some (A ++ (v0 ++ B)).length) :
    processPeople ⟨str "people", FieldType.people, [], [⟨nm, FieldType.text, [pat]⟩]⟩
        [Json.obj [(nm, Json.jstr v0)], Json.obj [(nm, Json.jstr v1)]]
        [] (A ++ (pat ++ (B ++ (pat ++ C))))
      = A ++ (v0 ++ (B ++ (v1 ++ C))) := by
  unfold processPeople processPeopleLoop processOnePerson
  simp only [List.foldl_cons, List.foldl_nil, List.head?, List.tail]
  rw [processPersonField_text nm pat v0 hv0 _ (occursIn_of_findSubIdx h1),
    replaceFirst_append v0 A (B ++ (pat ++ C)) h1]
  have hassoc : A ++ (v0 ++ (B ++ (pat ++ C))) = (A ++ (v0 ++ B)) ++ (pat ++ C) := by
    simp [List.append_assoc]
  rw [hassoc]
  unfold processPeopleLoop processOnePerson
  simp only [List.foldl_cons, List.foldl_nil, List.head?, List.tail]
  rw [processPersonField_text nm pat v1 hv1 _ (occursIn_of_findSubIdx h2),
    replaceFirst_append v1 (A ++ (v0 ++ B)) C h2]
  simp [processPeopleLoop, List.append_assoc]

/-- C1 amended witness: two people fill two occurrences of the same
literal pattern in order. -/
theorem processPeople_assigns_occurrences_in_order_witness :
    processPeople ⟨str "people", FieldType.people, [], [⟨str "role", FieldType.text, [str "ROLE"]⟩]⟩
        [Json.obj [(str "role", Json.jstr (str "Alice"))],
         Json.obj [(str "role", Json.jstr (str "Bob"))]]
        [] (str "x " ++ (str "ROLE" ++ (str " y " ++ (str "ROLE" ++ str " z"))))
      = str "x " ++ (str "Alice" ++ (str " y " ++ (str "Bob" ++ str " z"))) :=
  processPeople_assigns_occurrences_in_order (str "role") (str "ROLE")
    (str "Alice") (str "Bob") (str "x ") (str " y ") (str " z")
    (by decide) (by decide) (by decide) (by decide)

set_option maxHeartbeats 1600000

/-- C3: `findTextBinding` is exactly the evaluation of the spec's nine
rules in their fixed priority order — caller-supplied replacement
patterns first, then the placeholder marker, the weekday-plus-month date
shape, the opening-hours keyword, the street-address keyword, the
city/region/postal shape, the `@` role line, the two-word Title-Case
name, the long colon-free caption — returning at the first rule that
matches and yielding no binding when none matches. -/
theorem findTextBinding_is_ordered_rules (content : Str) (config : TemplateConfig)
    (parent : Option Str) :
    findTextBinding content config parent
      = firstSome (bindingRules config parent) content := by
  unfold findTextBinding bindingRules
  simp only [firstSome]
  cases hc : configFieldsMatch (pickTextToCheck parent content) config.fields with
  | some f => rfl
  | none => split_ifs <;> rfl

set_option maxHeartbeats 200000

/-- C7 counterexample: an element sized exactly to a 500×500 canvas (the
expected canvas size of a 500×500 config) is not identified as the root —
`findRootContainer` takes no canvas size at all and matches only the
hard-coded 1080×1350. -/
theorem findRootContainer_ignores_config_cex :
    (getStyles (DomNode.element (str "div")
        [(str "style", str "width: 500px; height: 500px")] [])).width
      = some (DimVal.num 500)
    ∧ (getStyles (DomNode.element (str "div")
        [(str "style", str "width: 500px; height: 500px")] [])).height
      = some (DimVal.num 500)
    ∧ (findRootContainer (DomNode.element (str "body") []
        [DomNode.element (str "div")
          [(str "style", str "width: 500px; height: 500px")] []])).isSome = false := by
  refine ⟨by decide, by decide, by decide⟩

/-- C7 amended: the root container is the first `div` child of `body`
whose inline width parses to the number `1080` and height to `1350` —
constants fixed in the source independently of the configured canvas
dimensions (the config is not consulted). -/
theorem findRootContainer_hardcoded_1080x1350 (body : DomNode) :
    findRootContainer body
      = (childrenOf body).find?
          (fun c =>
            nodeNameOf c = str "div" &&
            ((getStyles c).width = some (DimVal.num 1080) &&
              (getStyles c).height = some (DimVal.num 1350))) := by
  unfold findRootContainer
  induction childrenOf body with
  | nil => rfl
  | cons c rest ih =>
    by_cases hdiv : nodeNameOf c = str "div"
    · by_cases hw : (getStyles c).width = some (DimVal.num 1080)
      · by_cases hh : (getStyles c).height = some (DimVal.num 1350)
        · simp [findRootLoop, List.find?, hdiv, hw, hh]
        · simp [findRootLoop, List.find?, hdiv, hw, hh, ih]
      · simp [findRootLoop, List.find?, hdiv, hw, ih]
    · simp [findRootLoop, List.find?, hdiv, ih]

/-- Rounding preserves zero. -/
theorem round2_zero : round2 0 = 0 := by
  norm_num [round2, jsRound]

/-- C8 counterexample: with a descendant extending above and to the left
of the root (root box at `(10, 10)`, child box at `(0, 0)`), the
subtracted origin is the overall minimum `(0, 0)` — not the root's own
`(10, 10)` — and the root maps to `x = 10`, not to `0`. -/
theorem mapNode_origin_cex :
    (rawOrigin (RawFigmaNode.mk (str "r") (str "FRAME") (some ⟨10, 10, 100, 100⟩)
        [RawFigmaNode.mk (str "c") (str "RECTANGLE") (some ⟨0, 0, 5, 5⟩) []])
      = some (0, 0))
    ∧ ((convertRaw (RawFigmaNode.mk (str "r") (str "FRAME") (some ⟨10, 10, 100, 100⟩)
        [RawFigmaNode.mk (str "c") (str "RECTANGLE") (some ⟨0, 0, 5, 5⟩) []])).map mappedX
      = some 10)
    ∧ (10 : ℚ) ≠ 0 := by
  refine ⟨?_, ?_, by norm_num⟩
  · simp [rawOrigin, collectBounds, collectBoundsList]
  · simp [convertRaw, rawOrigin, collectBounds, collectBoundsList, mapNode, mapNodeList,
      mappedX]
    norm_num [min_def, round2, jsRound]

/-- C8 amended: the subtracted origin is the component-wise minimum over
every node's bounding box (the tree's overall top-left corner).  It
coincides with the root's own origin — and the root then maps to
`(0, 0)` — exactly when no node's box extends above or to the left of
the root's. -/
theorem convertRaw_min_origin (raw : RawFigmaNode) (b0 : BBox)
    (hbox : getBox raw = some b0)
    (hmin : ∀ b ∈ collectBounds raw, b0.bx ≤ b.bx ∧ b0.by_ ≤ b.by_) :
    rawOrigin raw = some (b0.bx, b0.by_)
    ∧ (convertRaw raw).map mappedX = some 0
    ∧ (convertRaw raw).map mappedY = some 0 := by
  obtain ⟨i, t, b, cs⟩ := raw
  have hb : b = some b0 := hbox
  subst hb
  have hcb : collectBounds (RawFigmaNode.mk i t (some b0) cs)
      = b0 :: collectBoundsList cs := by
    simp [collectBounds]
  have horigin : rawOrigin (RawFigmaNode.mk i t (some b0) cs) = some (b0.bx, b0.by_) := by
    unfold rawOrigin
    rw [hcb]
    have hx : ((collectBoundsList cs).map BBox.bx).foldl min b0.bx = b0.bx := by
      refine foldl_min_eq_seed _ _ ?_
      intro x hx
      obtain ⟨b, hbmem, hbx⟩ := List.mem_map.mp hx
      have : b ∈ collectBounds (RawFigmaNode.mk i t (some b0) cs) := by
        rw [hcb]; exact List.mem_cons_of_mem _ hbmem
      rw [← hbx]
      exact (hmin b this).1
    have hy : ((collectBoundsList cs).map BBox.by_).foldl min b0.by_ = b0.by_ := by
      refine foldl_min_eq_seed _ _ ?_
      intro y hy
      obtain ⟨b, hbmem, hby⟩ := List.mem_map.mp hy
      have : b ∈ collectBounds (RawFigmaNode.mk i t (some b0) cs) := by
        rw [hcb]; exact List.mem_cons_of_mem _ hbmem
      rw [← hby]
      exact (hmin b this).2
    simp [hx, hy]
  refine ⟨horigin, ?_, ?_⟩
  · unfold convertRaw
    rw [horigin]
    simp [mapNode, mappedX]
    norm_num [round2, jsRound]
  · unfold convertRaw
    rw [horigin]
    simp [mapNode, mappedY]
    norm_num [round2, jsRound]

/-- C8 amended witness: a root whose box is the overall top-left maps to
`(0, 0)` with origin equal to its own corner. -/
theorem convertRaw_min_origin_witness :
    rawOrigin (RawFigmaNode.mk (str "r") (str "FRAME") (some ⟨0, 0, 10, 10⟩)
        [RawFigmaNode.mk (str "c") (str "TEXT") (some ⟨5, 5, 2, 2⟩) []])
      = some (0, 0)
    ∧ ((convertRaw (RawFigmaNode.mk (str "r") (str "FRAME") (some ⟨0, 0, 10, 10⟩)
        [RawFigmaNode.mk (str "c") (str "TEXT") (some ⟨5, 5, 2, 2⟩) []])).map mappedX
      = some 0)
    ∧ ((convertRaw (RawFigmaNode.mk (str "r") (str "FRAME") (some ⟨0, 0, 10, 10⟩)
        [RawFigmaNode.mk (str "c") (str "TEXT") (some ⟨5, 5, 2, 2⟩) []])).map mappedY
      = some 0) :=
  convertRaw_min_origin
    (RawFigmaNode.mk (str "r") (str "FRAME") (some ⟨0, 0, 10, 10⟩)
      [RawFigmaNode.mk (str "c") (str "TEXT") (some ⟨5, 5, 2, 2⟩) []])
    ⟨0, 0, 10, 10⟩ rfl (by decide)

/-- The per-field loop reads the submission columns only through
`assocLookup`. -/
theorem processFieldsLoop_columns_ext
    (fmtDate : TemplateField → Str → Option Str) (fmtTime : TemplateField → Str → Str)
    (people uploadUrls : List Json) (imageUploads : List (Str × Json))
    (dynamicFields : List (Str × Str)) (c1 c2 : List (Str × Str))
    (fields : List TemplateField) (html : Str)
    (hcols : ∀ n, assocLookup c1 n = assocLookup c2 n) :
    processFieldsLoop fmtDate fmtTime people uploadUrls imageUploads dynamicFields
        c1 fields html
      = processFieldsLoop fmtDate fmtTime people uploadUrls imageUploads dynamicFields
          c2 fields html := by
  unfold processFieldsLoop
  apply List.foldl_ext
  intro acc field _
  have hres : resolveFieldValue c1 dynamicFields field.name
      = resolveFieldValue c2 dynamicFields field.name := by
    unfold resolveFieldValue
    rw [hcols field.name]
  rw [hres]

/-- C9: the rendering pipeline is a pure function of its declared inputs
— the template document, the config, the parser/formatter/lightening
collaborators, and the four submission projections it reads (people
column, uploadUrls column, primary color, and the literal columns as
observed through lookup).  Two runs on inputs that agree on those
projections produce identical output; in particular (taking the two
submissions identical) compiling the same input twice is byte-identical,
with no hidden state. -/
theorem renderCore_determined_by_inputs
    (jparse : Str → Option Json) (fmtDate : TemplateField → Str → Option Str)
    (fmtTime : TemplateField → Str → Str) (lighten : Str → Str)
    (config : TemplateConfig) (sub1 sub2 : SubmissionData) (html : Str)
    (hp : sub1.peopleCol = sub2.peopleCol)
    (hu : sub1.uploadUrlsCol = sub2.uploadUrlsCol)
    (hc : sub1.primaryColor = sub2.primaryColor)
    (hcols : ∀ n, assocLookup sub1.columns n = assocLookup sub2.columns n) :
    renderCore jparse fmtDate fmtTime lighten config sub1 html
      = renderCore jparse fmtDate fmtTime lighten config sub2 html := by
  unfold renderCore
  rw [hp, hu, hc]
  exact processFieldsLoop_columns_ext fmtDate fmtTime _ _ _ _ _ _ _ _ hcols

/-- C9 witness: a second run on the same submission is identical. -/
theorem renderCore_determined_by_inputs_witness :
    renderCore (fun _ => none) (fun _ _ => none) (fun _ v => v) (fun s => s)
        ⟨[⟨str "eventTitle", FieldType.text, [str "PLACE"], []⟩], []⟩
        ⟨none, none, none, [(str "eventTitle", str "Go")]⟩ (str "x PLACE y")
      = renderCore (fun _ => none) (fun _ _ => none) (fun _ v => v) (fun s => s)
          ⟨[⟨str "eventTitle", FieldType.text, [str "PLACE"], []⟩], []⟩
          ⟨none, none, none, [(str "eventTitle", str "Go")]⟩ (str "x PLACE y") :=
  renderCore_determined_by_inputs (fun _ => none) (fun _ _ => none) (fun _ v => v)
    (fun s => s) ⟨[⟨str "eventTitle", FieldType.text, [str "PLACE"], []⟩], []⟩
    ⟨none, none, none, [(str "eventTitle", str "Go")]⟩
    ⟨none, none, none, [(str "eventTitle", str "Go")]⟩
    (str "x PLACE y") rfl rfl rfl (fun _ => rfl)

/-- C10: malformed per-render columns never break rendering — a people
or uploadUrls column that is missing, blank, unparseable, or of the
wrong shape (non-array people; an uploadUrls value without the expected
`headshots`/`images`/`fields` keys and not itself an array) parses to the
empty list/map, and the pipeline — a total function — produces the same
output document as for an absent column. -/
theorem renderCore_malformed_data_harmless
    (jparse : Str → Option Json) (fmtDate : TemplateField → Str → Option Str)
    (fmtTime : TemplateField → Str → Str) (lighten : Str → Str)
    (config : TemplateConfig) (sub : SubmissionData) (html : Str) :
    ((sub.peopleCol = none
        ∨ (∃ s, sub.peopleCol = some s ∧ trimStr s = [])
        ∨ (∃ s, sub.peopleCol = some s ∧ jparse s = none)
        ∨ (∃ s j, sub.peopleCol = some s ∧ jparse s = some j ∧ isJsonArr j = false)) →
      parsePeopleColumn jparse sub.peopleCol = []
      ∧ renderCore jparse fmtDate fmtTime lighten config sub html
          = renderCore jparse fmtDate fmtTime lighten config
              { sub with peopleCol := none } html)
    ∧ ((sub.uploadUrlsCol = none
        ∨ (∃ s, sub.uploadUrlsCol = some s ∧ trimStr s = [])
        ∨ (∃ s, sub.uploadUrlsCol = some s ∧ jparse s = none)
        ∨ (∃ s j, sub.uploadUrlsCol = some s ∧ jparse s = some j ∧
            headshotsKeyArr j = false ∧ isJsonArr j = false ∧
            keyIsObj j (str "images") = false ∧ keyIsObj j (str "fields") = false)) →
      parseUploadHeadshots jparse sub.uploadUrlsCol = []
      ∧ parseUploadImages jparse sub.uploadUrlsCol = []
      ∧ parseUploadFields jparse sub.uploadUrlsCol = []
      ∧ renderCore jparse fmtDate fmtTime lighten config sub html
          = renderCore jparse fmtDate fmtTime lighten config
              { sub with uploadUrlsCol := none } html) := by
  constructor
  · intro hp
    have hpp : parsePeopleColumn jparse sub.peopleCol = [] := by
      rcases hp with h | ⟨s, hs, ht⟩ | ⟨s, hs, hj⟩ | ⟨s, j, hs, hj, hja⟩
      · rw [h]; rfl
      · rw [hs]; unfold parsePeopleColumn; simp [ht]
      · rw [hs]; unfold parsePeopleColumn
        by_cases he : (trimStr s).isEmpty <;> simp [he, hj]
      · rw [hs]; unfold parsePeopleColumn
        by_cases he : (trimStr s).isEmpty
        · simp [he]
        · simp only [he, Bool.false_eq_true, if_false, hj]
          cases j <;> simp_all [isJsonArr]
    refine ⟨hpp, ?_⟩
    unfold renderCore
    rw [hpp]
    rfl
  · intro hu
    have hhs : parseUploadHeadshots jparse sub.uploadUrlsCol = [] := by
      rcases hu with h | ⟨s, hs, ht⟩ | ⟨s, hs, hj⟩ | ⟨s, j, hs, hj, hhk, hja, him, hfl⟩
      · rw [h]; rfl
      · rw [hs]; unfold parseUploadHeadshots; simp [ht]
      · rw [hs]; unfold parseUploadHeadshots
        by_cases he : (trimStr s).isEmpty <;> simp [he, hj]
      · rw [hs]; unfold parseUploadHeadshots
        by_cases he : (trimStr s).isEmpty
        · simp [he]
        · simp only [he, Bool.false_eq_true, if_false, hj]
          unfold headshotsKeyArr at hhk
          cases hjg : jsonGet j (str "headshots") with
          | none =>
            simp only [hjg]
            cases j <;> simp_all [isJsonArr]
          | some v =>
            rw [hjg] at hhk
            cases v <;> simp_all [isJsonArr] <;> (cases j <;> simp_all [isJsonArr])
    have him2 : parseUploadImages jparse sub.uploadUrlsCol = [] := by
      rcases hu with h | ⟨s, hs, ht⟩ | ⟨s, hs, hj⟩ | ⟨s, j, hs, hj, hhk, hja, him, hfl⟩
      · rw [h]; rfl
      · rw [hs]; unfold parseUploadImages; simp [ht]
      · rw [hs]; unfold parseUploadImages
        by_cases he : (trimStr s).isEmpty <;> simp [he, hj]
      · rw [hs]; unfold parseUploadImages
        by_cases he : (trimStr s).isEmpty
        · simp [he]
        · simp only [he, Bool.false_eq_true, if_false, hj]
          unfold keyIsObj at him
          cases hjg : jsonGet j (str "images") with
          | none => simp [hjg]
          | some v =>
            rw [hjg] at him
            cases v <;> simp_all
    have hfl2 : parseUploadFields jparse sub.uploadUrlsCol = [] := by
      rcases hu with h | ⟨s, hs, ht⟩ | ⟨s, hs, hj⟩ | ⟨s, j, hs, hj, hhk, hja, him, hfl⟩
      · rw [h]; rfl
      · rw [hs]; unfold parseUploadFields; simp [ht]
      · rw [hs]; unfold parseUploadFields
        by_cases he : (trimStr s).isEmpty <;> simp [he, hj]
      · rw [hs]; unfold parseUploadFields
        by_cases he : (trimStr s).isEmpty
        · simp [he]
        · simp only [he, Bool.false_eq_true, if_false, hj]
          unfold keyIsObj at hfl
          cases hjg : jsonGet j (str "fields") with
          | none => simp [hjg]
          | some v =>
            rw [hjg] at hfl
            cases v <;> simp_all
    refine ⟨hhs, him2, hfl2, ?_⟩
    unfold renderCore
    rw [hhs, him2, hfl2]
    rfl

/-- C10 witness: an unparseable people column and an uploadUrls object
without the expected keys render exactly as absent columns. -/
theorem renderCore_malformed_data_harmless_witness :
    parsePeopleColumn (fun s => if s = str "oops" then none else some (Json.obj []))
        (some (str "oops"))
      = []
    ∧ parseUploadHeadshots (fun s => if s = str "oops" then none else some (Json.obj []))
        (some (str "bare"))
      = [] := by
  have h := renderCore_malformed_data_harmless
    (fun s => if s = str "oops" then none else some (Json.obj []))
    (fun _ _ => none) (fun _ v => v) (fun s => s) ⟨[], []⟩
    ⟨some (str "oops"), some (str "bare"), none, []⟩ (str "doc")
  refine ⟨(h.1 ?_).1, (h.2 ?_).1⟩
  · exact Or.inr (Or.inr (Or.inl ⟨str "oops", rfl, by simp⟩))
  · exact Or.inr (Or.inr (Or.inr ⟨str "bare", Json.obj [], rfl, by simp [str], by decide,
      by decide, by decide, by decide⟩))
